import Mathlib

/-!
Verification of the ross rotordynamics repository.

Part 1 embeds the Material class of src/ross/materials.py: numeric values are
modelled by rationals, a raised Python exception by a `none` / `Except.error`
result, the on-disk toml catalog by a map from names to stored records, and the
filesystem by a map from directory paths to catalog files.

Part 2 models, from the specification, the post-processing step of the modal
solver (the Rotor class is not part of the shown sources): the solved modes of
the quadratic eigenproblem are conjugate pairs -sigma ± i·omega_d and the
outputs wn and wd are the ascending lists of magnitudes and damped frequencies.
-/

namespace Ross

/-- A Python value passed as the `name` argument of `Material.__init__` or of
the `name` setter: `None`, a string, or a representative non-string value
(an integer).  `str()` succeeds on all of them. -/
inductive PyName where
  | pynone : PyName
  | pystr (s : String) : PyName
  | pyint (n : Int) : PyName
deriving DecidableEq

/-- Python `str()` on the modelled values. -/
def pyStr : PyName → String
  | .pynone => "None"
  | .pystr s => s
  | .pyint n => toString n

/-- The attribute record of a constructed Material, fields in the order the
constructor assigns them (`_name`, `rho`, `E`, `Poisson`, `G_s`, `color`). -/
structure Material where
  _name : String
  rho : ℚ
  E : ℚ
  Poisson : ℚ
  G_s : ℚ
  color : String
deriving DecidableEq

/-- Python division `a / b`: raises ZeroDivisionError (here: `none`) when the
denominator is zero. -/
def pydiv (a b : ℚ) : Option ℚ :=
  if b = 0 then none else some (a / b)

/-- Embedding of `Material.__init__` (materials.py lines 47-68).  Each of the
keyword arguments `E`, `G_s`, `Poisson` is `some` value when the keyword was
passed (with a numeric value) and `none` when it was omitted; `color` is the
optional color keyword.  A `none` result models a raised exception
(AssertionError, or ZeroDivisionError from the derivation of the omitted
property). -/
def Material.init (name : PyName) (rho : ℚ)
    (E G_s Poisson : Option ℚ) (color : Option String) : Option Material :=
  match name with
  | .pynone => none      -- assert name is not None
  | .pyint _ => none     -- assert type(name) is str
  | .pystr s =>
    if ' ' ∈ s.data then none    -- assert " " not in name
    else if ((if E.isSome then 1 else 0) + (if G_s.isSome then 1 else 0)
        + (if Poisson.isSome then 1 else 0) : Nat) ≤ 1 then
      none               -- assert at least 2 of E, G_s, Poisson provided
    else
      let c := color.getD "#525252"
      match E, G_s, Poisson with
      | none, some g, some p =>
          -- self.E = self.G_s * (2 * (1 + self.Poisson))
          some ⟨s, rho, g * (2 * (1 + p)), p, g, c⟩
      | some e, none, some p => do
          -- self.G_s = self.E / (2 * (1 + self.Poisson))
          let g ← pydiv e (2 * (1 + p))
          some ⟨s, rho, e, p, g, c⟩
      | some e, some g, none => do
          -- self.Poisson = (self.E / (2 * self.G_s)) - 1
          let q ← pydiv e (2 * g)
          some ⟨s, rho, e, q - 1, g, c⟩
      | some e, some g, some p => some ⟨s, rho, e, p, g, c⟩
      | _, _, _ => none  -- unreachable: fewer than two keywords present

/-- The exact condition under which `Material.init` succeeds: a string name
without a space, at least two of the three elastic properties, and the
derivation of the omitted property does not divide by zero. -/
def Material.initOk (name : PyName) (E G_s Poisson : Option ℚ) : Bool :=
  match name with
  | .pystr s =>
    !(decide (' ' ∈ s.data)) &&
    decide (1 < ((if E.isSome then 1 else 0) + (if G_s.isSome then 1 else 0)
        + (if Poisson.isSome then 1 else 0) : Nat)) &&
    (match E, G_s, Poisson with
     | some _, none, some p => decide (p ≠ -1)
     | some _, some g, none => decide (g ≠ 0)
     | _, _, _ => true)
  | _ => false

/-- Embedding of the `name` property setter (materials.py lines 106-111): it
stores `str(name)` without any validation; on the modelled domain `str()`
always succeeds, and the bare `except` body raises nothing anyway. -/
def Material.set_name (self : Material) (name : PyName) : Material :=
  { self with _name := pyStr name }

/-- `np.allclose` with the default tolerances rtol = 1e-5 and atol = 1e-8,
elementwise over equal-length lists. -/
def allclose (xs ys : List ℚ) : Bool :=
  decide (xs.length = ys.length) &&
  (List.zip xs ys).all fun q => decide (|q.1 - q.2| ≤ 1/100000000 + 1/100000 * |q.2|)

/-- Embedding of `Material.__eq__` (materials.py lines 70-78).  The numeric
values of `self.__dict__` are `rho`, `E`, `Poisson`, `G_s` in assignment
order; as in the source, BOTH comparison lists are built from `self`, so
`other` is never inspected. -/
def Material.eq (self other : Material) : Bool :=
  let self_list := [self.rho, self.E, self.Poisson, self.G_s]
  let other_list := [self.rho, self.E, self.Poisson, self.G_s]
  allclose self_list other_list

/-- The `"Materials"` table of an `available_materials.toml` file: a map from
material names to stored attribute records. -/
def Catalog : Type := String → Option Material

/-- A catalog with no entries. -/
def emptyCatalog : Catalog := fun _ => none

/-- Embedding of `Material.save_material` (materials.py lines 154-160) at the
level of the catalog it updates: the entry keyed by `self.name` becomes a copy
of the attribute record of `self`. -/
def Material.save_material (self : Material) (data : Catalog) : Catalog :=
  fun k => if k = self._name then some self else data k

/-- Embedding of `Material.use_material` (materials.py lines 128-135) on a
loaded catalog.  A missing key raises KeyError; a present key reconstructs a
fresh Material from the stored record via `Material.init` (which re-runs the
constructor asserts, so a stored name containing a space raises
AssertionError). -/
def Material.use_material (name : String) (data : Catalog) : Except String Material :=
  match data name with
  | some r =>
      match Material.init (.pystr r._name) r.rho (some r.E) (some r.G_s)
          (some r.Poisson) (some r.color) with
      | some m => .ok m
      | none => .error "AssertionError"
  | none => .error "KeyError: no instanced material with this name"

/-- Deleting a key from a catalog. -/
def catDelete (data : Catalog) (name : String) : Catalog :=
  fun k => if k = name then none else data k

/-- The filesystem: a map from directory paths to the catalog file they hold
(`none` when the directory has no `available_materials.toml`). -/
def FS : Type := String → Option Catalog

/-- The directory of the installed ross package,
`os.path.dirname(rs.__file__)`. -/
def rossDir : String := "site-packages/ross"

/-- Embedding of `Material.dump_data` (materials.py lines 113-116): write the
catalog file in directory `path`. -/
def Material.dump_data (fs : FS) (data : Catalog) (path : String) : FS :=
  fun q => if q = path then some data else fs q

/-- Embedding of `Material.load_data` (materials.py lines 118-126): read the
catalog file in `path`; when the file is absent, create an empty one there
and return it. -/
def Material.load_data (fs : FS) (path : String) : Catalog × FS :=
  match fs path with
  | some d => (d, fs)
  | none => (emptyCatalog, Material.dump_data fs emptyCatalog path)

/-- Embedding of `Material.remove_material` (materials.py lines 137-144).  As
in the source, line 139 loads from `os.path.dirname(rs.__file__)` regardless
of the `path` argument, and the final `dump_data(data)` call uses the default
path; when the name is absent the function RETURNS the message string (the
source text uses an apostrophe contraction) instead of raising, and nothing is
dumped.  The `Except` layer records that no exception escapes. -/
def Material.remove_material (fs : FS) (name : String) (path : String) :
    Except String (FS × Option String) :=
  let ld := Material.load_data fs rossDir
  match ld.1 name with
  | none => .ok (ld.2, some "There is not a saved material with this name.")
  | some _ => .ok (Material.dump_data ld.2 (catDelete ld.1 name) rossDir, none)

/-- The AISI4140 material of the materials.py docstring example:
`Material(name="AISI4140", rho=7850, E=203.2e9, G_s=80e9)`, whose derived
Poisson ratio is 0.27. -/
def AISI4140 : Material :=
  ⟨"AISI4140", 7850, 203200000000, 27/100, 80000000000, "#525252"⟩

/-- AISI4140 after `m.name = "a b"`: a reachable Material whose name holds a
space. -/
def renamedMaterial : Material :=
  Material.set_name AISI4140 (.pystr "a b")

/-- Modelled from the spec (section 4.3, Rotor.run is not among the shown
sources): a solved mode of the quadratic eigenproblem is a conjugate pair of
eigenvalues -sigma ± i·omega_d, represented as the real pair
(sigma, omega_d).  Its natural frequency is the eigenvalue magnitude
sqrt(sigma^2 + omega_d^2). -/
noncomputable def magnitude (m : ℝ × ℝ) : ℝ :=
  Real.sqrt (m.1 ^ 2 + m.2 ^ 2)

/-- Modelled from the spec (section 4.3): `wd` is the list of damped
frequencies omega_d of the solved modes, sorted ascending. -/
noncomputable def wd_of (modes : List (ℝ × ℝ)) : List ℝ :=
  List.insertionSort (· ≤ ·) (modes.map Prod.snd)

/-- Modelled from the spec (section 4.3): `wn` is the list of eigenvalue
magnitudes of the solved modes, sorted ascending. -/
noncomputable def wn_of (modes : List (ℝ × ℝ)) : List ℝ :=
  List.insertionSort (· ≤ ·) (modes.map magnitude)

/-- A concrete undamped mode list used to instantiate the modal theorem. -/
def modesEx : List (ℝ × ℝ) := [(0, 1), (0, 2)]

/-- A filesystem holding no catalog file anywhere. -/
def fsEmpty : FS := fun _ => none

/-- A filesystem holding an empty catalog in the ross package directory. -/
def fsRossEmpty : FS := fun q => if q = rossDir then some emptyCatalog else none

/-- The filesystem produced by `remove_material` on `fsEmpty`. -/
def fsAfterRemove : FS × Option String :=
  (fun q => if q = rossDir then some emptyCatalog else none,
   some "There is not a saved material with this name.")

/-- C4: for every Material successfully constructed with density and exactly
two of E, G_s, Poisson supplied, the omitted third property is derived so that
the isotropic relation E = 2·G_s·(1 + Poisson) holds (exactly, in the rational
model), regardless of which two were supplied. -/
theorem material_init_isotropic (name : PyName) (rho : ℚ)
    (E G_s Poisson : Option ℚ) (color : Option String) (m : Material)
    (htwo : ((if E.isSome then 1 else 0) + (if G_s.isSome then 1 else 0)
        + (if Poisson.isSome then 1 else 0) : Nat) = 2)
    (h : Material.init name rho E G_s Poisson color = some m) :
    m.E = 2 * m.G_s * (1 + m.Poisson) := by
  cases name with
  | pynone => exact absurd h (by simp [Material.init])
  | pyint n => exact absurd h (by simp [Material.init])
  | pystr s =>
    rcases E with _ | e <;> rcases G_s with _ | g <;> rcases Poisson with _ | p <;>
        simp only [Option.isSome_none, Option.isSome_some, if_true, if_false] at htwo <;>
        try omega
    · -- E omitted: E := G_s * (2 * (1 + Poisson))
      simp [Material.init] at h
      obtain ⟨hs, hm⟩ := h
      subst hm
      show g * (2 * (1 + p)) = 2 * g * (1 + p)
      ring
    · -- G_s omitted: G_s := E / (2 * (1 + Poisson))
      by_cases hz : (2 * (1 + p) : ℚ) = 0
      · simp [Material.init, pydiv, hz] at h
      · simp [Material.init, pydiv, hz] at h
        obtain ⟨hs, hm⟩ := h
        subst hm
        have h1p : (1 + p) ≠ 0 := by
          intro h0
          exact hz (by rw [h0]; ring)
        show e = 2 * (e / (2 * (1 + p))) * (1 + p)
        field_simp
        ring
    · -- Poisson omitted: Poisson := E / (2 * G_s) - 1
      by_cases hz : (2 * g : ℚ) = 0
      · simp [Material.init, pydiv, hz] at h
      · simp [Material.init, pydiv, hz] at h
        obtain ⟨hs, hm⟩ := h
        subst hm
        have hg : g ≠ 0 := by
          intro h0
          exact hz (by rw [h0]; ring)
        show e = 2 * g * (1 + (e / (2 * g) - 1))
        field_simp

/-- Instantiation of `material_init_isotropic` at the docstring example
`Material(name="AISI4140", rho=7850, E=203.2e9, G_s=80e9)`. -/
theorem material_init_isotropic_check :
    (((if (some (203200000000:ℚ)).isSome then 1 else 0)
      + (if (some (80000000000:ℚ)).isSome then 1 else 0)
      + (if (none : Option ℚ).isSome then 1 else 0) : Nat) = 2)
    ∧ Material.init (.pystr "AISI4140") 7850 (some 203200000000)
        (some 80000000000) none none = some AISI4140
    ∧ AISI4140.E = 2 * AISI4140.G_s * (1 + AISI4140.Poisson) := by
  have hinit : Material.init (.pystr "AISI4140") 7850 (some 203200000000)
      (some 80000000000) none none = some AISI4140 := by
    simp only [Material.init]
    rw [if_neg (by decide : ¬ (' ' ∈ "AISI4140".data))]
    norm_num [pydiv, AISI4140]
  refine ⟨by norm_num, hinit, ?_⟩
  exact material_init_isotropic (.pystr "AISI4140") 7850 (some 203200000000)
    (some 80000000000) none none AISI4140 (by norm_num) hinit

/-- C5 counterexample: `Material(name="m", rho=1, E=1, G_s=0)` has a valid
string name and two of the three elastic properties, so the claim says the
construction succeeds; the code raises ZeroDivisionError while deriving
Poisson. -/
theorem material_init_divzero_cex :
    (¬ (' ' ∈ "m".data))
    ∧ (1 < ((if (some (1:ℚ)).isSome then 1 else 0) + (if (some (0:ℚ)).isSome then 1 else 0)
        + (if (none : Option ℚ).isSome then 1 else 0) : Nat))
    ∧ Material.init (.pystr "m") 1 (some 1) (some 0) none none = none := by
  refine ⟨by decide, by norm_num, ?_⟩
  simp only [Material.init]
  rw [if_neg (by decide : ¬ (' ' ∈ "m".data))]
  norm_num [pydiv]

/-- C5 amended: Material construction fails exactly when the name is missing,
not a string, or contains a space, or fewer than two of E, G_s, Poisson are
supplied, or the derivation of the omitted property divides by zero (Poisson
equal to -1 with G_s omitted, or G_s equal to 0 with Poisson omitted); in all
other cases construction succeeds. -/
theorem material_init_success_iff (name : PyName) (rho : ℚ)
    (E G_s Poisson : Option ℚ) (color : Option String) :
    (Material.init name rho E G_s Poisson color).isSome
      = Material.initOk name E G_s Poisson := by
  cases name with
  | pynone => rfl
  | pyint n => rfl
  | pystr s =>
    by_cases hsp : ' ' ∈ s.data
    · simp [Material.init, Material.initOk, hsp]
    · rcases E with _ | e
      · rcases G_s with _ | g
        · rcases Poisson with _ | p
          · simp [Material.init, Material.initOk, hsp]
          · simp [Material.init, Material.initOk, hsp]
        · rcases Poisson with _ | p
          · simp [Material.init, Material.initOk, hsp]
          · simp [Material.init, Material.initOk, hsp]
      · rcases G_s with _ | g
        · rcases Poisson with _ | p
          · simp [Material.init, Material.initOk, hsp]
          · -- G_s is derived: succeeds exactly when Poisson is not -1
            by_cases hp : p = (-1 : ℚ)
            · norm_num [Material.init, Material.initOk, hsp, pydiv, hp]
            · have h2 : (2 : ℚ) * (1 + p) ≠ 0 := by
                intro h0
                apply hp
                linarith
              norm_num [Material.init, Material.initOk, hsp, pydiv, h2, hp]
        · rcases Poisson with _ | p
          · -- Poisson is derived: succeeds exactly when G_s is not 0
            by_cases hg : g = (0 : ℚ)
            · norm_num [Material.init, Material.initOk, hsp, pydiv, hg]
            · have h2 : (2 : ℚ) * g ≠ 0 := by
                intro h0
                apply hg
                linarith
              norm_num [Material.init, Material.initOk, hsp, pydiv, h2, hg]
          · simp [Material.init, Material.initOk, hsp]

/-- C8: Material equality returns True for every pair of Materials, whatever
their numeric properties, because both comparison lists are built from the
fields of the first operand. -/
theorem material_eq_always_true (a b : Material) : Material.eq a b = true := by
  have key : ∀ x : ℚ, |x - x| ≤ 1/100000000 + 1/100000 * |x| := by
    intro x
    rw [sub_self, abs_zero]
    positivity
  simp [Material.eq, allclose, key]
  refine ⟨by positivity, by positivity, by positivity, by positivity⟩

/-- C9: the no-whitespace naming rule is enforced only at construction.  The
name setter stores str(v) for every value v with no validation, so a rename
can leave a Material holding a name with a space or one derived from a
non-string value, names that the constructor itself rejects. -/
theorem name_setter_unvalidated :
    (∀ (m : Material) (v : PyName), Material.set_name m v = { m with _name := pyStr v })
    ∧ (Material.set_name AISI4140 (.pystr "a b"))._name = "a b"
    ∧ (Material.set_name AISI4140 (.pyint 3))._name = "3"
    ∧ (∀ (rho : ℚ) (E G_s Poisson : Option ℚ) (color : Option String),
        Material.init (.pystr "a b") rho E G_s Poisson color = none) := by
  refine ⟨fun m v => rfl, rfl, rfl, fun rho E G_s Poisson color => ?_⟩
  simp only [Material.init]
  rw [if_pos (by decide : (' ' ∈ "a b".data))]

/-- C6 counterexample: a Material renamed to "a b" (reachable through the name
setter) is saved under that name, but loading it back re-runs the constructor
asserts and raises AssertionError instead of returning a copy. -/
theorem material_roundtrip_space_cex :
    renamedMaterial._name = "a b"
    ∧ Material.use_material renamedMaterial._name
        (Material.save_material renamedMaterial emptyCatalog)
      = .error "AssertionError" := by
  exact ⟨rfl, rfl⟩

/-- C6 amended: for every Material whose current name has no space (the only
names the constructor re-accepts), saving and then loading by that name
returns a Material record whose fields all equal the original; in the code the
result is a freshly constructed object, not the stored reference. -/
theorem material_roundtrip (m : Material) (data : Catalog)
    (hname : ' ' ∉ m._name.data) :
    Material.use_material m._name (Material.save_material m data) = .ok m := by
  have hinit : Material.init (.pystr m._name) m.rho (some m.E) (some m.G_s)
      (some m.Poisson) (some m.color) = some m := by
    simp only [Material.init]
    rw [if_neg hname]
    norm_num
  simp [Material.use_material, Material.save_material, hinit]

/-- Instantiation of `material_roundtrip` at the AISI4140 material and the
empty catalog. -/
theorem material_roundtrip_check :
    (' ' ∉ AISI4140._name.data)
    ∧ Material.use_material AISI4140._name
        (Material.save_material AISI4140 emptyCatalog) = .ok AISI4140 :=
  ⟨by decide, material_roundtrip AISI4140 emptyCatalog (by decide)⟩

/-- C7 counterexample: removing a name with no catalog entry does not raise:
remove_material returns normally, handing back the message string together
with the unchanged filesystem. -/
theorem remove_material_no_raise_cex :
    Material.remove_material fsRossEmpty "x" rossDir
      = .ok (fsRossEmpty, some "There is not a saved material with this name.") := by
  rfl

/-- C7 amended: for a name with no catalog entry, use_material raises KeyError
while remove_material returns normally, with the not-saved message string as
its value and the filesystem untouched. -/
theorem missing_name_lookup (fs : FS) (data : Catalog) (name : String)
    (path : String) (hfs : fs rossDir = some data) (h : data name = none) :
    Material.use_material name data
      = .error "KeyError: no instanced material with this name"
    ∧ Material.remove_material fs name path
      = .ok (fs, some "There is not a saved material with this name.") := by
  constructor
  · simp only [Material.use_material, h]
  · simp only [Material.remove_material, Material.load_data, hfs, h]

/-- Instantiation of `missing_name_lookup` at an empty catalog stored in the
package directory. -/
theorem missing_name_lookup_check :
    (fsRossEmpty rossDir = some emptyCatalog) ∧ (emptyCatalog "x" = none)
    ∧ (Material.use_material "x" emptyCatalog
        = .error "KeyError: no instanced material with this name"
      ∧ Material.remove_material fsRossEmpty "x" "elsewhere"
        = .ok (fsRossEmpty, some "There is not a saved material with this name.")) :=
  ⟨rfl, rfl, missing_name_lookup fsRossEmpty emptyCatalog "x" "elsewhere" rfl rfl⟩

/-- C10: remove_material ignores its path argument: the outcome is identical
for every supplied path, and the filesystem is modified only at the default
package directory, never at the given path. -/
theorem remove_material_ignores_path (fs : FS) (name : String) (p₁ p₂ : String)
    (r : FS × Option String)
    (h : Material.remove_material fs name p₁ = .ok r) :
    Material.remove_material fs name p₂ = .ok r
    ∧ ∀ q, q ≠ rossDir → r.1 q = fs q := by
  refine ⟨h, ?_⟩
  intro q hq
  cases hfs : fs rossDir with
  | some d =>
    simp only [Material.remove_material, Material.load_data, hfs] at h
    cases hn : d name with
    | none =>
      simp only [hn, Except.ok.injEq] at h
      rw [← h]
    | some mm =>
      simp only [hn, Except.ok.injEq] at h
      rw [← h]
      simp [Material.dump_data, hq]
  | none =>
    simp only [Material.remove_material, Material.load_data, hfs, emptyCatalog,
      Except.ok.injEq] at h
    rw [← h]
    simp [Material.dump_data, hq]

/-- Instantiation of `remove_material_ignores_path` on an empty filesystem
with two different path arguments. -/
theorem remove_material_ignores_path_check :
    (Material.remove_material fsEmpty "x" "somewhere" = .ok fsAfterRemove)
    ∧ (Material.remove_material fsEmpty "x" "elsewhere" = .ok fsAfterRemove
      ∧ ∀ q, q ≠ rossDir → fsAfterRemove.1 q = fsEmpty q) :=
  ⟨rfl, remove_material_ignores_path fsEmpty "x" "somewhere" "elsewhere"
    fsAfterRemove rfl⟩

section SortedPointwise

variable {α : Type} [LinearOrder α]

/-- Inserting a larger element on the dominating side: if `s` is pointwise
below the sorted list `y :: t` and `y ≤ b`, then `s` is pointwise below
`t` with `b` inserted. -/
theorem forall₂_orderedInsert_right {t : List α} {s : List α} {y b : α}
    (hf : List.Forall₂ (· ≤ ·) s (y :: t)) (hyb : y ≤ b)
    (hsort : (y :: t).Sorted (· ≤ ·)) :
    List.Forall₂ (· ≤ ·) s (List.orderedInsert (· ≤ ·) b t) := by
  induction t generalizing s y with
  | nil =>
    rw [List.forall₂_cons_right_iff] at hf
    obtain ⟨x, s', hxy, hnil, rfl⟩ := hf
    rcases hnil
    exact .cons (le_trans hxy hyb) .nil
  | cons k t' ih =>
    rw [List.forall₂_cons_right_iff] at hf
    obtain ⟨x, s', hxy, htail, rfl⟩ := hf
    rw [List.forall₂_cons_right_iff] at htail
    obtain ⟨x₂, s'', hx2k, htail', rfl⟩ := htail
    rw [List.orderedInsert]
    by_cases hbk : b ≤ k
    · rw [if_pos hbk]
      exact .cons (le_trans hxy hyb) (.cons hx2k htail')
    · rw [if_neg hbk]
      have hyk : y ≤ k := (List.sorted_cons.mp hsort).1 k (List.mem_cons_self k t')
      exact .cons (le_trans hxy hyk)
        (ih (.cons hx2k htail') (le_of_not_le hbk) (List.sorted_cons.mp hsort).2)

/-- Inserting a smaller element on the dominated side: if `s` is pointwise
below `t`, the list `y :: t` is sorted and `a ≤ y`, then `s` with `a`
inserted is pointwise below `y :: t`. -/
theorem forall₂_orderedInsert_left {s t : List α} {y a : α}
    (hf : List.Forall₂ (· ≤ ·) s t) (hay : a ≤ y)
    (hsort : (y :: t).Sorted (· ≤ ·)) :
    List.Forall₂ (· ≤ ·) (List.orderedInsert (· ≤ ·) a s) (y :: t) := by
  induction s generalizing t y with
  | nil =>
    rcases hf
    exact .cons hay .nil
  | cons x s' ih =>
    rw [List.forall₂_cons_left_iff] at hf
    obtain ⟨k, t', hxk, hrest, rfl⟩ := hf
    rw [List.orderedInsert]
    by_cases hax : a ≤ x
    · rw [if_pos hax]
      exact .cons hay (.cons hxk hrest)
    · rw [if_neg hax]
      have hyk : y ≤ k := (List.sorted_cons.mp hsort).1 k (List.mem_cons_self k t')
      exact .cons (le_trans (le_of_not_le hax) hay)
        (ih hrest (le_trans hay hyk) (List.sorted_cons.mp hsort).2)

/-- Ordered insertion preserves pointwise domination between sorted lists. -/
theorem forall₂_orderedInsert {s t : List α} {a b : α} (hab : a ≤ b)
    (hf : List.Forall₂ (· ≤ ·) s t) (hs : s.Sorted (· ≤ ·))
    (ht : t.Sorted (· ≤ ·)) :
    List.Forall₂ (· ≤ ·) (List.orderedInsert (· ≤ ·) a s)
      (List.orderedInsert (· ≤ ·) b t) := by
  revert hs ht
  induction hf with
  | nil =>
    intro hs ht
    exact .cons hab .nil
  | @cons x y s' t' hxy hrest ih =>
    intro hs ht
    rw [List.orderedInsert, List.orderedInsert]
    by_cases hax : a ≤ x <;> by_cases hby : b ≤ y
    · rw [if_pos hax, if_pos hby]
      exact .cons hab (.cons hxy hrest)
    · rw [if_pos hax, if_neg hby]
      exact .cons (le_trans hax hxy)
        (forall₂_orderedInsert_right (.cons hxy hrest) (le_of_not_le hby) ht)
    · rw [if_neg hax, if_pos hby]
      exact .cons (le_trans (le_of_not_le hax) hab)
        (forall₂_orderedInsert_left hrest (le_trans hab hby) ht)
    · rw [if_neg hax, if_neg hby]
      exact .cons hxy
        (ih (List.sorted_cons.mp hs).2 (List.sorted_cons.mp ht).2)

/-- Sorting two pointwise-dominating lists preserves pointwise domination:
the i-th smallest of the dominated list is at most the i-th smallest of the
dominating list. -/
theorem forall₂_insertionSort {s t : List α} (hf : List.Forall₂ (· ≤ ·) s t) :
    List.Forall₂ (· ≤ ·) (List.insertionSort (· ≤ ·) s)
      (List.insertionSort (· ≤ ·) t) := by
  induction hf with
  | nil => exact .nil
  | @cons x y s' t' hxy hrest ih =>
    rw [List.insertionSort, List.insertionSort]
    exact forall₂_orderedInsert hxy ih
      (List.sorted_insertionSort _ _) (List.sorted_insertionSort _ _)

end SortedPointwise

/-- C2: the produced `wd` and `wn` are ascending sequences of equal length
with `wd i ≤ wn i` at every index, and they coincide when every mode is
undamped (all decay rates zero). -/
theorem wn_wd_sorted_paired (modes : List (ℝ × ℝ))
    (hpos : ∀ m ∈ modes, 0 ≤ m.2) :
    (wd_of modes).Sorted (· ≤ ·)
    ∧ (wn_of modes).Sorted (· ≤ ·)
    ∧ (wd_of modes).length = (wn_of modes).length
    ∧ (∀ (i : ℕ) (h₁ : i < (wd_of modes).length) (h₂ : i < (wn_of modes).length),
        (wd_of modes).get ⟨i, h₁⟩ ≤ (wn_of modes).get ⟨i, h₂⟩)
    ∧ ((∀ m ∈ modes, m.1 = 0) → wd_of modes = wn_of modes) := by
  have hmag : ∀ m : ℝ × ℝ, m.2 ≤ magnitude m := by
    intro m
    calc m.2 ≤ |m.2| := le_abs_self _
    _ = Real.sqrt (m.2 ^ 2) := (Real.sqrt_sq_eq_abs _).symm
    _ ≤ Real.sqrt (m.1 ^ 2 + m.2 ^ 2) :=
        Real.sqrt_le_sqrt (by nlinarith [sq_nonneg m.1])
  have hf0 : List.Forall₂ (· ≤ ·) (modes.map Prod.snd) (modes.map magnitude) := by
    clear hpos
    induction modes with
    | nil => exact .nil
    | cons m ms ih => exact .cons (hmag m) ih
  have hf : List.Forall₂ (· ≤ ·) (wd_of modes) (wn_of modes) :=
    forall₂_insertionSort hf0
  refine ⟨List.sorted_insertionSort _ _, List.sorted_insertionSort _ _,
    hf.length_eq, fun i h₁ h₂ => hf.get h₁ h₂, fun hzero => ?_⟩
  have hmap : modes.map magnitude = modes.map Prod.snd := by
    apply List.map_congr_left
    intro m hm
    unfold magnitude
    rw [hzero m hm]
    have h2 : (0:ℝ) ^ 2 + m.2 ^ 2 = m.2 ^ 2 := by ring
    rw [h2, Real.sqrt_sq (hpos m hm)]
  unfold wd_of wn_of
  rw [hmap]

/-- Instantiation of `wn_wd_sorted_paired` at a concrete undamped mode list. -/
theorem wn_wd_sorted_paired_check :
    (∀ m ∈ modesEx, 0 ≤ m.2)
    ∧ ((wd_of modesEx).Sorted (· ≤ ·)
      ∧ (wn_of modesEx).Sorted (· ≤ ·)
      ∧ (wd_of modesEx).length = (wn_of modesEx).length
      ∧ (∀ (i : ℕ) (h₁ : i < (wd_of modesEx).length)
            (h₂ : i < (wn_of modesEx).length),
          (wd_of modesEx).get ⟨i, h₁⟩ ≤ (wn_of modesEx).get ⟨i, h₂⟩)
      ∧ ((∀ m ∈ modesEx, m.1 = 0) → wd_of modesEx = wn_of modesEx))
    ∧ (∀ m ∈ modesEx, m.1 = 0) := by
  have h1 : ∀ m ∈ modesEx, (0:ℝ) ≤ m.2 := by
    intro m hm
    simp only [modesEx, List.mem_cons, List.mem_singleton] at hm
    rcases hm with rfl | rfl | h
    · norm_num
    · norm_num
    · simp at h
  have h2 : ∀ m ∈ modesEx, m.1 = (0:ℝ) := by
    intro m hm
    simp only [modesEx, List.mem_cons, List.mem_singleton] at hm
    rcases hm with rfl | rfl | h
    · norm_num
    · norm_num
    · simp at h
  exact ⟨h1, wn_wd_sorted_paired modesEx h1, h2⟩

end Ross
